import Mathlib

/-!
Verification development for the beads_rust repository.

The definitions below are a shallow embedding of the parts of the program
that the verified properties are about:

* the issues table of the SQLite schema (src/storage/schema.rs, SCHEMA_SQL),
  its CHECK constraints, its primary key, its unique index on external_ref,
  and the ON DELETE CASCADE foreign keys of the child tables;
* schema application and migration (apply_schema, run_migrations);
* the output-mode selection and error printing of the CLI output layer
  (src/output/context.rs);
* the issue-table renderer (src/output/components/issue_table.rs).

Rows and database states are plain inductive data; fallible operations
return Option (none models a rejected statement or a Rust panic).
-/

namespace Beads

/-- A row of the issues table, one field per column of the CREATE TABLE
statement in SCHEMA_SQL.  TEXT columns are String (Option String when the
column is nullable), INTEGER columns are Int (Option Int when nullable),
DATETIME columns are modelled as nullable text timestamps supplied by the
caller. -/
structure IssueRow where
  id : String
  content_hash : Option String
  title : String
  description : String
  design : String
  acceptance_criteria : String
  notes : String
  status : String
  priority : Int
  issue_type : String
  assignee : Option String
  owner : Option String
  estimated_minutes : Option Int
  created_at : String
  created_by : Option String
  updated_at : String
  closed_at : Option String
  close_reason : Option String
  closed_by_session : Option String
  due_at : Option String
  defer_until : Option String
  external_ref : Option String
  source_system : Option String
  source_repo : String
  deleted_at : Option String
  deleted_by : Option String
  delete_reason : Option String
  original_type : Option String
  compaction_level : Option Int
  compacted_at : Option String
  compacted_at_commit : Option String
  original_size : Option Int
  sender : Option String
  ephemeral : Option Int
  pinned : Option Int
  is_template : Option Int
  await_type : Option String
  await_id : Option String
  timeout_ns : Option Int
  waiters : Option String
  hook_bead : Option String
  role_bead : Option String
  agent_state : Option String
  last_activity : Option String
  role_type : Option String
  rig : Option String
deriving DecidableEq

/-- A row with every column at its DDL default (timestamps, which SQLite
fills with CURRENT_TIMESTAMP, are modelled as the empty string). -/
def defaultRow : IssueRow :=
  { id := "", content_hash := none, title := "", description := "", design := ""
    acceptance_criteria := "", notes := "", status := "open", priority := 2
    issue_type := "task", assignee := none, owner := some "", estimated_minutes := none
    created_at := "", created_by := some "", updated_at := "", closed_at := none
    close_reason := some "", closed_by_session := some "", due_at := none
    defer_until := none, external_ref := none, source_system := some ""
    source_repo := ".", deleted_at := none, deleted_by := some ""
    delete_reason := some "", original_type := some "", compaction_level := some 0
    compacted_at := none, compacted_at_commit := none, original_size := none
    sender := some "", ephemeral := some 0, pinned := some 0, is_template := some 0
    await_type := none, await_id := none, timeout_ns := none, waiters := none
    hook_bead := some "", role_bead := some "", agent_state := some ""
    last_activity := none, role_type := some "", rig := some "" }

/-- The table-level CHECK constraint of the issues table:
(status = closed AND closed_at IS NOT NULL) OR (status = tombstone) OR
(status NOT IN (closed, tombstone) AND closed_at IS NULL). -/
def closedAtCheck (r : IssueRow) : Bool :=
  (r.status == "closed" && r.closed_at.isSome) ||
  (r.status == "tombstone") ||
  (r.status != "closed" && r.status != "tombstone" && r.closed_at.isNone)

/-- The column CHECK constraints of the issues table:
length(title) <= 500 and priority >= 0 AND priority <= 4.  SQLite length()
on a text value counts characters. -/
def columnChecks (r : IssueRow) : Bool :=
  (r.title.length ≤ 500) && (0 ≤ r.priority && r.priority ≤ 4)

/-- All row-level constraints of the issues table together. -/
def rowChecks (r : IssueRow) : Bool :=
  columnChecks r && closedAtCheck r

/-- The unique partial index idx_issues_external_ref_unique ON
issues(external_ref) WHERE external_ref IS NOT NULL: the new row conflicts
when its external_ref is non-null and equals the external_ref of an
existing row. -/
def externalRefConflict (db : List IssueRow) (r : IssueRow) : Bool :=
  match r.external_ref with
  | none => false
  | some v => db.any (fun q => q.external_ref == some v)

/-- INSERT INTO issues: rejected when the primary key collides, a CHECK
constraint fails, or the unique partial index on external_ref is violated;
otherwise the row is appended. -/
def insertIssue (db : List IssueRow) (r : IssueRow) : Option (List IssueRow) :=
  if db.any (fun q => q.id == r.id) then none
  else if !rowChecks r then none
  else if externalRefConflict db r then none
  else some (db ++ [r])

/-- UPDATE of the row whose id equals the id of the supplied new row image:
SQLite re-evaluates the CHECK constraints on the new values and the unique
partial index against the other rows.  Rejected when no such row exists, a
CHECK fails, or the new external_ref collides with another row. -/
def updateIssue (db : List IssueRow) (r : IssueRow) : Option (List IssueRow) :=
  if !(db.any (fun q => q.id == r.id)) then none
  else if !rowChecks r then none
  else if externalRefConflict (db.filter (fun q => q.id != r.id)) r then none
  else some (db.map (fun q => if q.id == r.id then r else q))

/-- The closed-at invariant as the specification states it: status closed
forces a closed_at timestamp, a status that is neither closed nor tombstone
forces a null closed_at, and a tombstone row is unconstrained. -/
def ClosedAtInvariant (r : IssueRow) : Prop :=
  (r.status = "closed" → r.closed_at ≠ none) ∧
  (r.status ≠ "closed" → r.status ≠ "tombstone" → r.closed_at = none)

instance (r : IssueRow) : Decidable (ClosedAtInvariant r) := by
  unfold ClosedAtInvariant; infer_instance

/-- Pairwise distinctness of the non-null external_ref values of a table. -/
def ExternalRefUnique (db : List IssueRow) : Prop :=
  db.Pairwise (fun a b => ∀ v, a.external_ref = some v → b.external_ref ≠ some v)

/-- A label row: (issue_id, label), FOREIGN KEY (issue_id) REFERENCES
issues(id) ON DELETE CASCADE. -/
structure LabelRow where
  issue_id : String
  label : String
deriving DecidableEq

/-- A comment row: (id, issue_id, author, text, created_at), FOREIGN KEY
(issue_id) REFERENCES issues(id) ON DELETE CASCADE. -/
structure CommentRow where
  id : Int
  issue_id : String
  author : String
  text : String
  created_at : String
deriving DecidableEq

/-- An event row: (id, issue_id, event_type, actor, old_value, new_value,
comment, created_at), FOREIGN KEY (issue_id) REFERENCES issues(id) ON
DELETE CASCADE. -/
structure EventRow where
  id : Int
  issue_id : String
  event_type : String
  actor : String
  old_value : Option String
  new_value : Option String
  comment : Option String
  created_at : String
deriving DecidableEq

/-- The issues table together with the child tables whose foreign keys
cascade on delete. -/
structure DbData where
  issues : List IssueRow
  labels : List LabelRow
  comments : List CommentRow
  events : List EventRow
deriving DecidableEq

/-- DELETE FROM issues WHERE id = iid with foreign-key enforcement on:
the issue row is removed and, by ON DELETE CASCADE, so is every label,
comment and event row whose issue_id references it. -/
def deleteIssue (d : DbData) (iid : String) : DbData :=
  { issues := d.issues.filter (fun r => r.id != iid)
    labels := d.labels.filter (fun l => l.issue_id != iid)
    comments := d.comments.filter (fun c => c.issue_id != iid)
    events := d.events.filter (fun e => e.issue_id != iid) }

/-- Referential integrity of the child tables: every label, comment and
event row references an existing issue row. -/
def RefIntegrity (d : DbData) : Prop :=
  (∀ l ∈ d.labels, ∃ r ∈ d.issues, r.id = l.issue_id) ∧
  (∀ c ∈ d.comments, ∃ r ∈ d.issues, r.id = c.issue_id) ∧
  (∀ e ∈ d.events, ∃ r ∈ d.issues, r.id = e.issue_id)

instance (d : DbData) : Decidable (RefIntegrity d) := by
  unfold RefIntegrity; infer_instance

/-- Priority range and title length as the specification states them. -/
def PriorityTitleOk (r : IssueRow) : Prop :=
  0 ≤ r.priority ∧ r.priority ≤ 4 ∧ r.title.length ≤ 500

instance (r : IssueRow) : Decidable (PriorityTitleOk r) := by
  unfold PriorityTitleOk; infer_instance

/-! Output layer: mode selection and error printing (src/output/context.rs). -/

/-- The output modes of the CLI output coordinator. -/
inductive OutputMode
  | Rich
  | Plain
  | Json
  | Toon
  | Quiet
deriving DecidableEq

/-- Which process stream a line of output is written to. -/
inductive OutStream
  | stdout
  | stderr
deriving DecidableEq

/-- OutputContext::detect_mode.  The two environment-dependent inputs, the
presence of the NO_COLOR environment variable and whether stdout is a
terminal, are passed explicitly. -/
def detectMode (json quiet noColorFlag noColorEnv stdoutIsTerminal : Bool) : OutputMode :=
  if json then .Json
  else if quiet then .Quiet
  else if noColorFlag || noColorEnv then .Plain
  else if !stdoutIsTerminal then .Plain
  else .Rich

/-- OutputContext::from_flags, same conventions as detectMode. -/
def fromFlags (json quiet noColor noColorEnv stdoutIsTerminal : Bool) : OutputMode :=
  if json then .Json
  else if quiet then .Quiet
  else if noColor || noColorEnv || !stdoutIsTerminal then .Plain
  else .Rich

/-- Abstraction of the rich_rust panel rendering used in Rich mode: a
titled body printed through the console.  Only the routing to a stream and
the presence of the message matter to the properties below. -/
def panelRender (title message : String) : String :=
  title ++ "\n" ++ message

/-- OutputContext::error: the list of (stream, text) writes it performs for
a given mode and message.  Rich mode prints an error panel through the
console, which writes to stdout; Plain and Quiet print an Error line to
stderr via eprintln; Json and Toon write nothing. -/
def errorOutput (mode : OutputMode) (message : String) : List (OutStream × String) :=
  match mode with
  | .Rich => [(.stdout, panelRender "Error" message)]
  | .Plain | .Quiet => [(.stderr, "Error: " ++ message)]
  | .Json | .Toon => []

/-- OutputContext::error_panel: the list of (stream, text) writes it
performs.  Rich mode prints a panel through the console (stdout); Plain
prints the error line and one suggestion line per suggestion to stderr;
Quiet prints only the description to stderr; Json and Toon write nothing. -/
def errorPanelOutput (mode : OutputMode) (title description : String)
    (suggestions : List String) : List (OutStream × String) :=
  match mode with
  | .Rich =>
      [(.stdout, panelRender title
        (description ++ "\n\nSuggestions:\n" ++
          String.join (suggestions.map (fun s => "• " ++ s ++ "\n"))))]
  | .Plain =>
      (.stderr, "Error: " ++ title ++ " - " ++ description) ::
        suggestions.map (fun s => (.stderr, "  Suggestion: " ++ s))
  | .Quiet => [(.stderr, "Error: " ++ description)]
  | .Json | .Toon => []

/-! Issue table renderer (src/output/components/issue_table.rs). -/

/-- The fields of the model Issue that IssueTable::build reads when the
standard column set is selected. -/
structure OutputIssue where
  id : String
  priority : Int
  status : String
  issueType : String
  title : String
  assignee : Option String
deriving DecidableEq

/-- UTF-8 byte length of a character list; String::len in Rust. -/
def byteLen (cs : List Char) : Nat :=
  (cs.map Char.utf8Size).sum

/-- Rust String::truncate at a byte budget: keeps the characters that fit
entirely within the budget, returns none (a panic) when the budget runs
out in the middle of a character, i.e. when the budget position is not a
character boundary. -/
def truncBytes : Nat → List Char → Option (List Char)
  | _, [] => some []
  | 0, _ :: _ => some []
  | n + 1, c :: cs =>
      if c.utf8Size ≤ n + 1 then
        (truncBytes (n + 1 - c.utf8Size) cs).map (fun t => c :: t)
      else
        none

/-- Whether a byte offset into a character list is a character boundary
(offsets beyond the end are not). -/
def charBoundary : List Char → Nat → Bool
  | _, 0 => true
  | [], _ + 1 => false
  | c :: cs, n + 1 =>
      if c.utf8Size ≤ n + 1 then charBoundary cs (n + 1 - c.utf8Size) else false

/-- The longest prefix of a character list that fits within a byte budget. -/
def byteTake : Nat → List Char → List Char
  | _, [] => []
  | n, c :: cs => if c.utf8Size ≤ n then c :: byteTake (n - c.utf8Size) cs else []

/-- The title cell of IssueTable::build: a title longer than 57 bytes is
truncated to its first 57 bytes and given a trailing ellipsis; none models
the panic of String::truncate at a non-boundary offset. -/
def renderTitle (title : List Char) : Option (List Char) :=
  if byteLen title > 57 then
    (truncBytes 57 title).map (fun t => t ++ ("...".data))
  else
    some title

/-- One table row of IssueTable::build with the standard columns
(ID, P, Status, Type, Title, Assignee), as the list of cell texts. -/
def buildRow (i : OutputIssue) : Option (List String) :=
  (renderTitle i.title.data).map (fun t =>
    [i.id, "P" ++ toString i.priority, i.status, i.issueType,
      String.mk t, i.assignee.getD ""])

/-- IssueTable::build over a list of issues: one row per issue; none when
rendering any row panics. -/
def buildRows : List OutputIssue → Option (List (List String))
  | [] => some []
  | i :: rest =>
      match buildRow i, buildRows rest with
      | some r, some rs => some (r :: rs)
      | _, _ => none

/-- The row IssueTable::build is expected to produce for an issue whose
title does not make truncation panic. -/
def expectedRow (i : OutputIssue) : List String :=
  [i.id, "P" ++ toString i.priority, i.status, i.issueType,
    String.mk (if byteLen i.title.data ≤ 57 then i.title.data
      else byteTake 57 i.title.data ++ ("...".data)),
    i.assignee.getD ""]

/-- A concrete issue whose title is 29 two-byte characters: 58 bytes of
valid UTF-8 with no character boundary at byte 57. -/
def multibyteTitled : OutputIssue :=
  { id := "bd-1", priority := 1, status := "open", issueType := "task",
    title := String.mk (List.replicate 29 'é'), assignee := none }

/-- A concrete issue list exercising both branches of the title renderer:
one 80-byte ASCII title and one short title. -/
def demoTableIssues : List OutputIssue :=
  [{ id := "bd-2", priority := 0, status := "open", issueType := "task",
     title := String.mk (List.replicate 80 'x'), assignee := some "dev" },
   { id := "bd-3", priority := 2, status := "open", issueType := "bug",
     title := "short title", assignee := none }]

/-! Schema application and migration (src/storage/schema.rs).

The database state is modelled at the level apply_schema and
run_migrations observe it: an association list of tables (each a column
list, a foreign-key list and a row list), the set of index names, and the
two pragmas the code sets.  SQLite values are text, integer or null. -/

namespace Schema

/-- An SQLite value as stored in a modelled row. -/
inductive Val
  | vnull
  | vint (i : Int)
  | vtext (s : String)
deriving DecidableEq

/-- A stored row: an association list from column name to value. -/
abbrev SRow : Type := List (String × Val)

/-- Value of a column in a row; a column the row does not list is null. -/
def rowGet (r : SRow) (c : String) : Val :=
  match r.find? (fun p => p.1 == c) with
  | some p => p.2
  | none => .vnull

/-- Set a column of a row, updating it in place or appending it. -/
def rowSet (r : SRow) (c : String) (v : Val) : SRow :=
  if r.any (fun p => p.1 == c) then
    r.map (fun p => if p.1 == c then (p.1, v) else p)
  else
    r ++ [(c, v)]

/-- A table: its column names in order, its foreign keys as pairs of the
local column and the referenced table, and its rows. -/
structure STable where
  cols : List String
  fks : List (String × String)
  rows : List SRow
deriving DecidableEq

/-- The connection state apply_schema acts on: the tables by name, the
names of the existing indexes, and the journal_mode and foreign_keys
pragmas. -/
structure DbState where
  tables : List (String × STable)
  indexes : List String
  journalMode : String
  foreignKeysOn : Bool
deriving DecidableEq

/-- A freshly opened empty database. -/
def emptyDb : DbState :=
  { tables := [], indexes := [], journalMode := "delete", foreignKeysOn := false }

/-- A database created by an older schema: its blocked_issues_cache still
has the blocked_by_json column. -/
def oldCacheDb : DbState :=
  { tables := [("issues", ⟨["id", "title"], [], []⟩),
               ("blocked_issues_cache", ⟨["issue_id", "blocked_by_json"], [], []⟩)]
    indexes := [], journalMode := "delete", foreignKeysOn := false }

/-- The table of a given name, if any (the first entry of that name). -/
def getTable (s : DbState) (n : String) : Option STable :=
  match s.tables.find? (fun p => p.1 == n) with
  | some p => some p.2
  | none => none

/-- Whether a table of the given name exists. -/
def tableExists (s : DbState) (n : String) : Bool :=
  (getTable s n).isSome

/-- Whether the named table exists and has the named column
(pragma_table_info as used by run_migrations). -/
def hasColumn (s : DbState) (t c : String) : Bool :=
  match getTable s t with
  | some tb => tb.cols.contains c
  | none => false

/-- Whether an index of the given name exists.  CREATE INDEX IF NOT EXISTS
guards on the index name. -/
def indexExists (s : DbState) (n : String) : Bool :=
  s.indexes.contains n

/-- CREATE TABLE IF NOT EXISTS: a no-op when a table of that name exists,
otherwise the table is created empty. -/
def createTableIfNotExists (s : DbState) (n : String) (cols : List String)
    (fks : List (String × String)) : DbState :=
  if tableExists s n then s
  else { s with tables := s.tables ++ [(n, ⟨cols, fks, []⟩)] }

/-- Plain CREATE TABLE: an error when a table of that name exists. -/
def createTable (s : DbState) (n : String) (cols : List String)
    (fks : List (String × String)) : Option DbState :=
  if tableExists s n then none
  else some { s with tables := s.tables ++ [(n, ⟨cols, fks, []⟩)] }

/-- CREATE INDEX IF NOT EXISTS: a no-op when an index of that name exists. -/
def createIndexIfNotExists (s : DbState) (n : String) : DbState :=
  if indexExists s n then s
  else { s with indexes := s.indexes ++ [n] }

/-- DROP TABLE IF EXISTS. -/
def dropTableIfExists (s : DbState) (n : String) : DbState :=
  { s with tables := s.tables.filter (fun p => p.1 != n) }

/-- Apply a function to the (first) table of a given name. -/
def updateFirst (l : List (String × STable)) (t : String)
    (f : STable → STable) : List (String × STable) :=
  match l with
  | [] => []
  | p :: rest =>
      if p.1 == t then (p.1, f p.2) :: rest else p :: updateFirst rest t f

/-- Apply a function to the named table of a state. -/
def updateTable (s : DbState) (t : String) (f : STable → STable) : DbState :=
  { s with tables := updateFirst s.tables t f }

/-- ALTER TABLE t ADD COLUMN c: an error when the table is missing or the
column already exists; otherwise the column is appended and every stored
row receives its default value. -/
def alterAddColumn (s : DbState) (t c : String) (dflt : Val) : Option DbState :=
  (getTable s t).bind (fun tb =>
    if tb.cols.contains c then none
    else some (updateTable s t (fun tb' =>
      { tb' with cols := tb'.cols ++ [c]
                 rows := tb'.rows.map (fun r => r ++ [(c, dflt)]) })))

/-- A DDL statement of the idempotent schema script. -/
inductive Stmt
  | ctbl (n : String) (cols : List String) (fks : List (String × String))
  | cidx (n : String) (tbl : String)
deriving DecidableEq

/-- Whether a statement is a CREATE INDEX statement. -/
def isIndexStmt : Stmt → Bool
  | .ctbl _ _ _ => false
  | .cidx _ _ => true

/-- Execute one statement of the schema script. -/
def execStmt (s : DbState) : Stmt → DbState
  | .ctbl n cols fks => createTableIfNotExists s n cols fks
  | .cidx n _ => createIndexIfNotExists s n

/-- Execute a script (execute_batch over IF NOT EXISTS statements). -/
def execBatch (s : DbState) (l : List Stmt) : DbState :=
  l.foldl execStmt s

/-- The columns of the issues table, in DDL order. -/
def issuesCols : List String :=
  ["id", "content_hash", "title", "description", "design",
   "acceptance_criteria", "notes", "status", "priority", "issue_type",
   "assignee", "owner", "estimated_minutes", "created_at", "created_by",
   "updated_at", "closed_at", "close_reason", "closed_by_session", "due_at",
   "defer_until", "external_ref", "source_system", "source_repo",
   "deleted_at", "deleted_by", "delete_reason", "original_type",
   "compaction_level", "compacted_at", "compacted_at_commit",
   "original_size", "sender", "ephemeral", "pinned", "is_template",
   "await_type", "await_id", "timeout_ns", "waiters", "hook_bead",
   "role_bead", "agent_state", "last_activity", "role_type", "rig"]

/-- The statements of SCHEMA_SQL, in source order. -/
def schemaStmts : List Stmt :=
  [.ctbl "issues" issuesCols [],
   .cidx "idx_issues_status" "issues",
   .cidx "idx_issues_priority" "issues",
   .cidx "idx_issues_issue_type" "issues",
   .cidx "idx_issues_assignee" "issues",
   .cidx "idx_issues_created_at" "issues",
   .cidx "idx_issues_updated_at" "issues",
   .cidx "idx_issues_content_hash" "issues",
   .cidx "idx_issues_external_ref" "issues",
   .cidx "idx_issues_external_ref_unique" "issues",
   .cidx "idx_issues_ephemeral" "issues",
   .cidx "idx_issues_pinned" "issues",
   .cidx "idx_issues_tombstone" "issues",
   .cidx "idx_issues_due_at" "issues",
   .cidx "idx_issues_defer_until" "issues",
   .cidx "idx_issues_ready" "issues",
   .ctbl "dependencies"
     ["issue_id", "depends_on_id", "type", "created_at", "created_by",
      "metadata", "thread_id"]
     [("issue_id", "issues")],
   .cidx "idx_dependencies_issue_id" "dependencies",
   .cidx "idx_dependencies_depends_on_id" "dependencies",
   .cidx "idx_dependencies_type" "dependencies",
   .ctbl "labels" ["issue_id", "label"] [("issue_id", "issues")],
   .cidx "idx_labels_label" "labels",
   .cidx "idx_labels_issue_id" "labels",
   .ctbl "comments" ["id", "issue_id", "author", "text", "created_at"]
     [("issue_id", "issues")],
   .cidx "idx_comments_issue" "comments",
   .cidx "idx_comments_created_at" "comments",
   .ctbl "events"
     ["id", "issue_id", "event_type", "actor", "old_value", "new_value",
      "comment", "created_at"]
     [("issue_id", "issues")],
   .cidx "idx_events_issue" "events",
   .cidx "idx_events_type" "events",
   .cidx "idx_events_created_at" "events",
   .cidx "idx_events_actor" "events",
   .ctbl "config" ["key", "value"] [],
   .ctbl "metadata" ["key", "value"] [],
   .ctbl "dirty_issues" ["issue_id", "marked_at"] [("issue_id", "issues")],
   .cidx "idx_dirty_issues_marked_at" "dirty_issues",
   .ctbl "export_hashes" ["issue_id", "content_hash", "exported_at"]
     [("issue_id", "issues")],
   .ctbl "blocked_issues_cache" ["issue_id", "blocked_by", "blocked_at"]
     [("issue_id", "issues")],
   .cidx "idx_blocked_cache_blocked_at" "blocked_issues_cache",
   .ctbl "child_counters" ["parent_id", "last_child"]
     [("parent_id", "issues")]]

/-- First migration of run_migrations: when blocked_issues_cache lacks a
blocked_by or a blocked_at column, the table is dropped and recreated
empty with exactly (issue_id, blocked_by, blocked_at) and its foreign key,
and its blocked_at index is recreated. -/
def migrateBlockedCache (s : DbState) : Option DbState :=
  if !hasColumn s "blocked_issues_cache" "blocked_by" ||
     !hasColumn s "blocked_issues_cache" "blocked_at" then
    (createTable (dropTableIfExists s "blocked_issues_cache")
        "blocked_issues_cache" ["issue_id", "blocked_by", "blocked_at"]
        [("issue_id", "issues")]).map
      (fun s2 => createIndexIfNotExists s2 "idx_blocked_cache_blocked_at")
  else
    some s

/-- Second migration: when issues has a compaction_level column, every
null compaction_level is set to 0. -/
def migrateCompaction (s : DbState) : DbState :=
  if hasColumn s "issues" "compaction_level" then
    updateTable s "issues" (fun tb =>
      { tb with rows := tb.rows.map (fun r =>
          if rowGet r "compaction_level" == Val.vnull then
            rowSet r "compaction_level" (Val.vint 0)
          else r) })
  else
    s

/-- Third migration: add the source_repo column when missing. -/
def migrateSourceRepo (s : DbState) : Option DbState :=
  if !hasColumn s "issues" "source_repo" then
    alterAddColumn s "issues" "source_repo" (Val.vtext ".")
  else
    some s

/-- Fourth migration: add the four gate columns when await_type is
missing. -/
def migrateGateColumns (s : DbState) : Option DbState :=
  if !hasColumn s "issues" "await_type" then
    (alterAddColumn s "issues" "await_type" Val.vnull).bind (fun s1 =>
    (alterAddColumn s1 "issues" "await_id" Val.vnull).bind (fun s2 =>
    (alterAddColumn s2 "issues" "timeout_ns" Val.vnull).bind (fun s3 =>
    alterAddColumn s3 "issues" "waiters" Val.vnull)))
  else
    some s

/-- Fifth migration: add the six Gastown columns when hook_bead is
missing. -/
def migrateGastownColumns (s : DbState) : Option DbState :=
  if !hasColumn s "issues" "hook_bead" then
    (alterAddColumn s "issues" "hook_bead" (Val.vtext "")).bind (fun s1 =>
    (alterAddColumn s1 "issues" "role_bead" (Val.vtext "")).bind (fun s2 =>
    (alterAddColumn s2 "issues" "agent_state" (Val.vtext "")).bind (fun s3 =>
    (alterAddColumn s3 "issues" "last_activity" Val.vnull).bind (fun s4 =>
    (alterAddColumn s4 "issues" "role_type" (Val.vtext "")).bind (fun s5 =>
    alterAddColumn s5 "issues" "rig" (Val.vtext ""))))))
  else
    some s

/-- The final batch of run_migrations: index statements for bd parity, all
IF NOT EXISTS. -/
def migrationIndexStmts : List Stmt :=
  [.cidx "idx_issues_content_hash" "issues",
   .cidx "idx_issues_external_ref" "issues",
   .cidx "idx_issues_external_ref_unique" "issues",
   .cidx "idx_issues_ephemeral" "issues",
   .cidx "idx_issues_pinned" "issues",
   .cidx "idx_issues_tombstone" "issues",
   .cidx "idx_issues_due_at" "issues",
   .cidx "idx_issues_defer_until" "issues",
   .cidx "idx_issues_ready" "issues",
   .cidx "idx_dependencies_composite" "dependencies",
   .cidx "idx_comments_issue" "comments",
   .cidx "idx_events_issue" "events",
   .cidx "idx_events_type" "events",
   .cidx "idx_events_actor" "events"]

/-- run_migrations: the five migrations in source order followed by the
parity index batch. -/
def runMigrations (s : DbState) : Option DbState :=
  (migrateBlockedCache s).bind (fun s1 =>
  (migrateSourceRepo (migrateCompaction s1)).bind (fun s3 =>
  (migrateGateColumns s3).bind (fun s4 =>
  (migrateGastownColumns s4).map (fun s5 => execBatch s5 migrationIndexStmts))))

/-- The two pragma updates at the end of apply_schema. -/
def setPragmas (s : DbState) : DbState :=
  { s with journalMode := "WAL", foreignKeysOn := true }

/-- apply_schema: execute the schema script, run the migrations, then set
journal_mode = WAL and foreign_keys = ON. -/
def applySchema (s : DbState) : Option DbState :=
  (runMigrations (execBatch s schemaStmts)).map setPragmas

/-- Whether the effect of a schema statement is already present. -/
def stmtDone (s : DbState) : Stmt → Bool
  | .ctbl n _ _ => tableExists s n
  | .cidx n _ => indexExists s n

/-- After the compaction migration has run, the issues table (when it has
a compaction_level column) stores no null compaction_level. -/
def CompactionOk (s : DbState) : Prop :=
  hasColumn s "issues" "compaction_level" = true →
    ∀ tb, getTable s "issues" = some tb →
      ∀ r ∈ tb.rows, rowGet r "compaction_level" ≠ Val.vnull

/-- The facts that hold of a state apply_schema has produced, and that
make a second run of apply_schema the identity. -/
structure Post (s : DbState) : Prop where
  done_schema : ∀ st ∈ schemaStmts, stmtDone s st = true
  done_mig : ∀ st ∈ migrationIndexStmts, stmtDone s st = true
  cache_by : hasColumn s "blocked_issues_cache" "blocked_by" = true
  cache_at : hasColumn s "blocked_issues_cache" "blocked_at" = true
  src_repo : hasColumn s "issues" "source_repo" = true
  await_col : hasColumn s "issues" "await_type" = true
  hook_col : hasColumn s "issues" "hook_bead" = true
  compaction : CompactionOk s

/-- Facts preserved by each migration step, used to carry the Post
invariants through a run. -/
structure StepOk (s s' : DbState) : Prop where
  tmono : ∀ n, tableExists s n = true → tableExists s' n = true
  imono : ∀ i, indexExists s i = true → indexExists s' i = true
  hmono : ∀ c, hasColumn s "issues" c = true → hasColumn s' "issues" c = true
  comp : CompactionOk s → CompactionOk s'

end Schema

/-! Theorems. -/

theorem closedAtCheck_iff (r : IssueRow) :
    closedAtCheck r = true ↔ ClosedAtInvariant r := by
  unfold closedAtCheck ClosedAtInvariant
  by_cases h1 : r.status = "closed" <;> by_cases h2 : r.status = "tombstone" <;>
    cases hc : r.closed_at <;> simp [h1, h2, hc]

theorem columnChecks_iff (r : IssueRow) :
    columnChecks r = true ↔ PriorityTitleOk r := by
  unfold columnChecks PriorityTitleOk
  simp only [Bool.and_eq_true, decide_eq_true_iff]
  tauto

theorem insert_some_rowChecks {db : List IssueRow} {r : IssueRow}
    {db' : List IssueRow} (h : insertIssue db r = some db') :
    rowChecks r = true ∧ externalRefConflict db r = false ∧ db' = db ++ [r] := by
  by_cases h1 : db.any (fun q => q.id == r.id) <;>
    by_cases h2 : rowChecks r <;>
    by_cases h3 : externalRefConflict db r <;>
    simp [insertIssue, h1, h2, h3] at h <;> simp_all

theorem update_some_rowChecks {db : List IssueRow} {r : IssueRow}
    {db' : List IssueRow} (h : updateIssue db r = some db') :
    rowChecks r = true := by
  by_cases h1 : db.any (fun q => q.id == r.id) <;>
    by_cases h2 : rowChecks r <;>
    by_cases h3 : externalRefConflict (db.filter (fun q => q.id != r.id)) r <;>
    simp [updateIssue, h1, h2, h3] at h <;> simp_all

theorem insert_none_of_checks_false {db : List IssueRow} {r : IssueRow}
    (h : rowChecks r = false) : insertIssue db r = none := by
  by_cases h1 : db.any (fun q => q.id == r.id) <;> simp [insertIssue, h1, h]

theorem update_none_of_checks_false {db : List IssueRow} {r : IssueRow}
    (h : rowChecks r = false) : updateIssue db r = none := by
  by_cases h1 : db.any (fun q => q.id == r.id) <;> simp [updateIssue, h1, h]

/-- C1.  A row accepted into the issues table satisfies the closed-at
invariant: status closed forces closed_at to be set, a status that is
neither closed nor tombstone forces closed_at to be null, and tombstones
are unconstrained; an insert violating the invariant is rejected by the
CHECK constraint. -/
theorem insert_closed_at_invariant (db : List IssueRow) (r : IssueRow) :
    (∀ db', insertIssue db r = some db' → ClosedAtInvariant r) ∧
    (¬ ClosedAtInvariant r → insertIssue db r = none) := by
  constructor
  · intro db' h
    have hc := (insert_some_rowChecks h).1
    have : closedAtCheck r = true := by
      have := hc; unfold rowChecks at this
      exact (Bool.and_eq_true _ _ |>.mp this).2
    exact (closedAtCheck_iff r).mp this
  · intro hinv
    have hc : closedAtCheck r = false := by
      cases h : closedAtCheck r with
      | false => rfl
      | true => exact absurd ((closedAtCheck_iff r).mp h) hinv
    have : rowChecks r = false := by
      unfold rowChecks; simp [hc]
    exact insert_none_of_checks_false this

/-- Witness for C1: the invariant theorem applied to a concrete violating
row (status closed, closed_at null) and a concrete accepted row. -/
theorem insert_closed_at_invariant_witness :
    insertIssue [] { defaultRow with id := "w1", title := "t", status := "closed" } = none ∧
    ClosedAtInvariant { defaultRow with id := "w2", title := "t" } :=
  ⟨(insert_closed_at_invariant [] _).2 (by decide),
   (insert_closed_at_invariant []
      { defaultRow with id := "w2", title := "t" }).1
      [{ defaultRow with id := "w2", title := "t" }] (by decide)⟩

/-- C2.  A row accepted into the issues table, by insert or update, has
priority in 0..=4 and a title of at most 500 characters; a statement
violating either bound is rejected by the CHECK constraints. -/
theorem insert_update_priority_title_bounds (db : List IssueRow) (r : IssueRow) :
    (∀ db', insertIssue db r = some db' → PriorityTitleOk r) ∧
    (∀ db', updateIssue db r = some db' → PriorityTitleOk r) ∧
    (¬ PriorityTitleOk r → insertIssue db r = none ∧ updateIssue db r = none) := by
  refine ⟨?_, ?_, ?_⟩
  · intro db' h
    have hc := (insert_some_rowChecks h).1
    unfold rowChecks at hc
    exact (columnChecks_iff r).mp (Bool.and_eq_true _ _ |>.mp hc).1
  · intro db' h
    have hc := update_some_rowChecks h
    unfold rowChecks at hc
    exact (columnChecks_iff r).mp (Bool.and_eq_true _ _ |>.mp hc).1
  · intro hbad
    have hc : columnChecks r = false := by
      cases h : columnChecks r with
      | false => rfl
      | true => exact absurd ((columnChecks_iff r).mp h) hbad
    have hrc : rowChecks r = false := by unfold rowChecks; simp [hc]
    exact ⟨insert_none_of_checks_false hrc, update_none_of_checks_false hrc⟩

/-- Witness for C2: the bounds theorem applied to a concrete row with
priority 5, rejected by insert and update, and a concrete accepted row. -/
theorem insert_update_priority_title_bounds_witness :
    (insertIssue [] { defaultRow with id := "w3", title := "t", priority := 5 } = none ∧
     updateIssue [] { defaultRow with id := "w3", title := "t", priority := 5 } = none) ∧
    PriorityTitleOk { defaultRow with id := "w4", title := "t" } :=
  ⟨(insert_update_priority_title_bounds []
      { defaultRow with id := "w3", title := "t", priority := 5 }).2.2 (by decide),
   (insert_update_priority_title_bounds []
      { defaultRow with id := "w4", title := "t" }).1
      [{ defaultRow with id := "w4", title := "t" }] (by decide)⟩

/-- C3.  The unique partial index on external_ref keeps non-null
external_ref values pairwise distinct: an insert preserves the uniqueness
invariant, and inserting a row whose non-null external_ref already occurs
in the table is rejected. -/
theorem insert_external_ref_unique (db : List IssueRow) (r : IssueRow) :
    (∀ db', ExternalRefUnique db → insertIssue db r = some db' →
      ExternalRefUnique db') ∧
    ((∃ q ∈ db, ∃ v, q.external_ref = some v ∧ r.external_ref = some v) →
      insertIssue db r = none) := by
  constructor
  · intro db' hu h
    obtain ⟨-, hconf, hdb'⟩ := insert_some_rowChecks h
    subst hdb'
    unfold ExternalRefUnique at hu ⊢
    rw [List.pairwise_append]
    refine ⟨hu, by simp, ?_⟩
    intro a ha b hb v hav
    simp only [List.mem_singleton] at hb
    subst hb
    intro hrv
    simp only [externalRefConflict, hrv] at hconf
    have : db.any (fun q => q.external_ref == some v) = true :=
      List.any_eq_true.mpr ⟨a, ha, by simp [hav]⟩
    simp [this] at hconf
  · intro ⟨q, hq, v, hqv, hrv⟩
    have hconf : externalRefConflict db r = true := by
      simp only [externalRefConflict, hrv]
      exact List.any_eq_true.mpr ⟨q, hq, by simp [hqv]⟩
    by_cases h1 : db.any (fun p => p.id == r.id) <;>
      by_cases h2 : rowChecks r <;>
      simp [insertIssue, h1, h2, hconf]

/-- Witness for C3: the uniqueness theorem applied to a concrete table
holding external_ref EXT-1 and a second concrete row with the same
external_ref, whose insert is rejected. -/
theorem insert_external_ref_unique_witness :
    insertIssue [{ defaultRow with id := "r1", title := "t", external_ref := some "EXT-1" }]
        { defaultRow with id := "r2", title := "t", external_ref := some "EXT-1" } = none :=
  (insert_external_ref_unique _ _).2
    ⟨{ defaultRow with id := "r1", title := "t", external_ref := some "EXT-1" },
     by simp, "EXT-1", rfl, rfl⟩

/-- C4.  With foreign keys enforced, deleting an issue cascades: no label,
comment or event row referencing the deleted id remains, and referential
integrity of the child tables is preserved. -/
theorem delete_issue_cascade (d : DbData) (iid : String) :
    (∀ l ∈ (deleteIssue d iid).labels, l.issue_id ≠ iid) ∧
    (∀ c ∈ (deleteIssue d iid).comments, c.issue_id ≠ iid) ∧
    (∀ e ∈ (deleteIssue d iid).events, e.issue_id ≠ iid) ∧
    (RefIntegrity d → RefIntegrity (deleteIssue d iid)) := by
  refine ⟨?_, ?_, ?_, ?_⟩
  · intro l hl
    simp only [deleteIssue, List.mem_filter, bne_iff_ne, ne_eq] at hl
    exact hl.2
  · intro c hc
    simp only [deleteIssue, List.mem_filter, bne_iff_ne, ne_eq] at hc
    exact hc.2
  · intro e he
    simp only [deleteIssue, List.mem_filter, bne_iff_ne, ne_eq] at he
    exact he.2
  · rintro ⟨hl, hc, he⟩
    refine ⟨?_, ?_, ?_⟩
    · intro l hm
      simp only [deleteIssue, List.mem_filter, bne_iff_ne, ne_eq] at hm
      obtain ⟨q, hq, hid⟩ := hl l hm.1
      exact ⟨q, by simp [deleteIssue, List.mem_filter, hq, bne_iff_ne, hid, hm.2], hid⟩
    · intro c hm
      simp only [deleteIssue, List.mem_filter, bne_iff_ne, ne_eq] at hm
      obtain ⟨q, hq, hid⟩ := hc c hm.1
      exact ⟨q, by simp [deleteIssue, List.mem_filter, hq, bne_iff_ne, hid, hm.2], hid⟩
    · intro e hm
      simp only [deleteIssue, List.mem_filter, bne_iff_ne, ne_eq] at hm
      obtain ⟨q, hq, hid⟩ := he e hm.1
      exact ⟨q, by simp [deleteIssue, List.mem_filter, hq, bne_iff_ne, hid, hm.2], hid⟩

/-- Witness for C4: the cascade theorem applied to a concrete database
with one issue, one label, one comment and one event, discharging the
referential-integrity hypothesis. -/
theorem delete_issue_cascade_witness :
    RefIntegrity (deleteIssue
      { issues := [{ defaultRow with id := "A", title := "t" }]
        labels := [{ issue_id := "A", label := "bug" }]
        comments := [{ id := 1, issue_id := "A", author := "u", text := "c", created_at := "" }]
        events := [{ id := 1, issue_id := "A", event_type := "issue_created", actor := "u",
                     old_value := none, new_value := none, comment := none, created_at := "" }] }
      "A") :=
  (delete_issue_cascade _ "A").2.2.2 (by decide)

/-- C9.  With the NO_COLOR environment variable set and neither the json
nor the quiet flag given, both mode-selection paths resolve to Plain for
every combination of the no-color flag and the terminal state. -/
theorem no_color_forces_plain :
    ∀ noColorFlag stdoutIsTerminal : Bool,
      detectMode false false noColorFlag true stdoutIsTerminal = OutputMode.Plain ∧
      fromFlags false false noColorFlag true stdoutIsTerminal = OutputMode.Plain := by
  decide

/-- C8, counterexample.  In Json mode OutputContext::error and
OutputContext::error_panel write nothing at all: the error is neither
printed to stderr nor emitted as a JSON object on stdout, refuting the
claim for the json output mode. -/
theorem error_json_silent :
    errorOutput OutputMode.Json "database is locked" = [] ∧
    errorPanelOutput OutputMode.Json "Not found" "no such issue" ["check the id"] = [] :=
  ⟨rfl, rfl⟩

/-- C8, amended.  OutputContext::error prints an Error line to stderr in
Plain and Quiet modes, renders an error panel through the console (stdout)
in Rich mode, and emits nothing in Json and Toon modes. -/
theorem error_output_by_mode (message : String) :
    errorOutput OutputMode.Plain message = [(OutStream.stderr, "Error: " ++ message)] ∧
    errorOutput OutputMode.Quiet message = [(OutStream.stderr, "Error: " ++ message)] ∧
    errorOutput OutputMode.Rich message = [(OutStream.stdout, panelRender "Error" message)] ∧
    errorOutput OutputMode.Json message = [] ∧
    errorOutput OutputMode.Toon message = [] :=
  ⟨rfl, rfl, rfl, rfl, rfl⟩

theorem truncBytes_of_boundary :
    ∀ (cs : List Char) (n : Nat), charBoundary cs n = true →
      truncBytes n cs = some (byteTake n cs) := by
  intro cs
  induction cs with
  | nil => intro n _; simp [truncBytes, byteTake]
  | cons c cs ih =>
    intro n h
    cases n with
    | zero =>
      simp [truncBytes, byteTake, Nat.not_le.mpr (Char.utf8Size_pos c)]
    | succ n =>
      by_cases hsz : c.utf8Size ≤ n + 1
      · simp only [charBoundary, if_pos hsz] at h
        simp [truncBytes, byteTake, hsz, ih _ h]
      · simp [charBoundary, hsz] at h

theorem buildRow_expected (i : OutputIssue)
    (h : byteLen i.title.data ≤ 57 ∨ charBoundary i.title.data 57 = true) :
    buildRow i = some (expectedRow i) := by
  by_cases hlen : byteLen i.title.data ≤ 57
  · simp [buildRow, renderTitle, expectedRow, Nat.not_lt.mpr hlen, hlen]
  · have hb : charBoundary i.title.data 57 = true := h.resolve_left hlen
    have h57 : 57 < byteLen i.title.data := Nat.not_le.mp hlen
    simp [buildRow, renderTitle, expectedRow, h57,
      truncBytes_of_boundary _ _ hb, hlen]

/-- C10, counterexample.  On a valid UTF-8 title of 29 two-byte characters
(58 bytes), byte offset 57 falls inside a character, so the truncation in
IssueTable::build panics: the build is not total on all valid UTF-8
titles. -/
theorem issue_table_truncate_panics :
    buildRows [multibyteTitled] = none := by
  decide

/-- C10, amended.  For every issue list in which each title either fits in
57 bytes or has a character boundary at byte 57 (in particular every ASCII
title), IssueTable::build produces exactly one row per issue, rendering a
title of at most 57 bytes unchanged and a longer title as its first 57
bytes followed by an ellipsis; on a longer title whose byte 57 is not a
character boundary the truncation panics. -/
theorem issue_table_build_total (issues : List OutputIssue)
    (h : ∀ i ∈ issues, byteLen i.title.data ≤ 57 ∨ charBoundary i.title.data 57 = true) :
    buildRows issues = some (issues.map expectedRow) := by
  induction issues with
  | nil => rfl
  | cons i rest ih =>
    have h1 := buildRow_expected i (h i (by simp))
    have h2 := ih (fun j hj => h j (by simp [hj]))
    simp [buildRows, h1, h2]

/-- Witness for the amended C10: the build theorem applied to a concrete
two-issue list with one long ASCII title and one short title. -/
theorem issue_table_build_total_witness :
    buildRows demoTableIssues = some (demoTableIssues.map expectedRow) :=
  issue_table_build_total demoTableIssues (by decide)

namespace Schema

theorem find_filter_ne (l : List (String × STable)) (n : String) :
    (l.filter (fun p => p.1 != n)).find? (fun p => p.1 == n) = none := by
  induction l with
  | nil => rfl
  | cons p l ih =>
    by_cases h : p.1 == n
    · simp only [List.filter_cons, bne, h, Bool.not_true, ite_false]
      exact ih
    · simp only [List.filter_cons, bne, h, Bool.not_false, ite_true, List.find?_cons, h]
      exact ih

theorem find_filter_ne_other (l : List (String × STable)) (n m : String)
    (h : m ≠ n) :
    (l.filter (fun p => p.1 != n)).find? (fun p => p.1 == m) =
      l.find? (fun p => p.1 == m) := by
  induction l with
  | nil => rfl
  | cons p l ih =>
    by_cases hm : p.1 == m
    · have hp : p.1 = m := by simpa using hm
      have hn : (p.1 != n) = true := by simp [bne, hp, h]
      simp [List.filter_cons, hn, List.find?_cons, hm]
    · by_cases hn : (p.1 != n) = true <;>
        simp [List.filter_cons, hn, List.find?_cons, hm, ih]

theorem find_none_of_not_exists {s : DbState} {n : String}
    (h : tableExists s n = false) :
    s.tables.find? (fun p => p.1 == n) = none := by
  unfold tableExists getTable at h
  cases hf : s.tables.find? (fun p => p.1 == n) with
  | none => rfl
  | some p => rw [hf] at h; simp at h

theorem getTable_drop_self (s : DbState) (n : String) :
    getTable (dropTableIfExists s n) n = none := by
  unfold getTable dropTableIfExists
  simp only [find_filter_ne]

theorem getTable_drop_other (s : DbState) (n m : String) (h : m ≠ n) :
    getTable (dropTableIfExists s n) m = getTable s m := by
  unfold getTable dropTableIfExists
  simp only [find_filter_ne_other _ _ _ h]

theorem getTable_createTable {s s' : DbState} {n : String}
    {cols : List String} {fks : List (String × String)}
    (h : createTable s n cols fks = some s') :
    getTable s' n = some ⟨cols, fks, []⟩ ∧
    (∀ m, m ≠ n → getTable s' m = getTable s m) ∧
    s'.indexes = s.indexes := by
  unfold createTable at h
  by_cases he : tableExists s n
  · rw [if_pos he] at h; exact absurd h (by simp)
  · rw [if_neg he] at h
    have he' : tableExists s n = false := by simpa using he
    simp only [Option.some.injEq] at h
    subst h
    refine ⟨?_, ?_, rfl⟩
    · unfold getTable
      simp [List.find?_append, find_none_of_not_exists he']
    · intro m hm
      unfold getTable
      have hne : (n == m) = false := beq_eq_false_iff_ne.mpr (Ne.symm hm)
      simp [List.find?_append, List.find?_cons, hne]

theorem createIndexINE_tables (s : DbState) (i : String) :
    (createIndexIfNotExists s i).tables = s.tables := by
  unfold createIndexIfNotExists
  split <;> rfl

theorem getTable_eq_of_tables {s s' : DbState} (h : s'.tables = s.tables)
    (n : String) : getTable s' n = getTable s n := by
  unfold getTable; rw [h]

theorem getTable_createIndexINE (s : DbState) (i n : String) :
    getTable (createIndexIfNotExists s i) n = getTable s n :=
  getTable_eq_of_tables (createIndexINE_tables s i) n

theorem find_updateFirst_ne (l : List (String × STable)) (t : String)
    (f : STable → STable) (n : String) (h : n ≠ t) :
    (updateFirst l t f).find? (fun p => p.1 == n) =
      l.find? (fun p => p.1 == n) := by
  induction l with
  | nil => rfl
  | cons p l ih =>
    by_cases ht : p.1 == t
    · have hp : p.1 = t := by simpa using ht
      have hn : (p.1 == n) = false := by
        rw [hp]; exact beq_eq_false_iff_ne.mpr (Ne.symm h)
      simp [updateFirst, ht, List.find?_cons, hn]
    · by_cases hn : p.1 == n <;> simp [updateFirst, ht, List.find?_cons, hn, ih]

theorem find_updateFirst_self (l : List (String × STable)) (t : String)
    (f : STable → STable) :
    (updateFirst l t f).find? (fun p => p.1 == t) =
      (l.find? (fun p => p.1 == t)).map (fun p => (p.1, f p.2)) := by
  induction l with
  | nil => rfl
  | cons p l ih =>
    by_cases ht : p.1 == t
    · simp [updateFirst, ht, List.find?_cons]
    · simp [updateFirst, ht, List.find?_cons, ih]

theorem getTable_updateTable_ne (s : DbState) (t : String)
    (f : STable → STable) (n : String) (h : n ≠ t) :
    getTable (updateTable s t f) n = getTable s n := by
  unfold getTable updateTable
  simp only [find_updateFirst_ne _ _ _ _ h]

theorem getTable_updateTable_self (s : DbState) (t : String)
    (f : STable → STable) :
    getTable (updateTable s t f) t = (getTable s t).map f := by
  unfold getTable updateTable
  rw [find_updateFirst_self]
  cases s.tables.find? (fun p => p.1 == t) <;> simp

theorem alterAddColumn_some {s s' : DbState} {t c : String} {v : Val}
    (h : alterAddColumn s t c v = some s') :
    ∃ tb, getTable s t = some tb ∧ tb.cols.contains c = false ∧
      s' = updateTable s t (fun tb' =>
        { tb' with cols := tb'.cols ++ [c]
                   rows := tb'.rows.map (fun r => r ++ [(c, v)]) }) := by
  unfold alterAddColumn at h
  cases hg : getTable s t with
  | none => rw [hg] at h; exact absurd h (by simp)
  | some tb =>
    rw [hg] at h
    simp only [Option.some_bind] at h
    by_cases hc : tb.cols.contains c
    · rw [if_pos hc] at h; exact absurd h (by simp)
    · rw [if_neg hc] at h
      simp only [Option.some.injEq] at h
      exact ⟨tb, rfl, by simpa using hc, h.symm⟩

theorem alterAddColumn_getTable_ne {s s' : DbState} {t c : String} {v : Val}
    (h : alterAddColumn s t c v = some s') (n : String) (hn : n ≠ t) :
    getTable s' n = getTable s n := by
  obtain ⟨tb, -, -, rfl⟩ := alterAddColumn_some h
  exact getTable_updateTable_ne _ _ _ _ hn

theorem migrateCompaction_getTable_ne (s : DbState) (n : String)
    (h : n ≠ "issues") :
    getTable (migrateCompaction s) n = getTable s n := by
  unfold migrateCompaction
  split
  · exact getTable_updateTable_ne _ _ _ _ h
  · rfl

theorem migrateSourceRepo_getTable_cache {s s' : DbState}
    (h : migrateSourceRepo s = some s') :
    getTable s' "blocked_issues_cache" = getTable s "blocked_issues_cache" := by
  unfold migrateSourceRepo at h
  split at h
  · exact alterAddColumn_getTable_ne h _ (by decide)
  · simp only [Option.some.injEq] at h; rw [h]

theorem migrateGateColumns_getTable_cache {s s' : DbState}
    (h : migrateGateColumns s = some s') :
    getTable s' "blocked_issues_cache" = getTable s "blocked_issues_cache" := by
  unfold migrateGateColumns at h
  split at h
  · simp only [Option.bind_eq_some] at h
    obtain ⟨s1, h1, s2, h2, s3, h3, h4⟩ := h
    rw [alterAddColumn_getTable_ne h4 _ (by decide),
      alterAddColumn_getTable_ne h3 _ (by decide),
      alterAddColumn_getTable_ne h2 _ (by decide),
      alterAddColumn_getTable_ne h1 _ (by decide)]
  · simp only [Option.some.injEq] at h; rw [h]

theorem migrateGastownColumns_getTable_cache {s s' : DbState}
    (h : migrateGastownColumns s = some s') :
    getTable s' "blocked_issues_cache" = getTable s "blocked_issues_cache" := by
  unfold migrateGastownColumns at h
  split at h
  · simp only [Option.bind_eq_some] at h
    obtain ⟨s1, h1, s2, h2, s3, h3, s4, h4, s5, h5, h6⟩ := h
    rw [alterAddColumn_getTable_ne h6 _ (by decide),
      alterAddColumn_getTable_ne h5 _ (by decide),
      alterAddColumn_getTable_ne h4 _ (by decide),
      alterAddColumn_getTable_ne h3 _ (by decide),
      alterAddColumn_getTable_ne h2 _ (by decide),
      alterAddColumn_getTable_ne h1 _ (by decide)]
  · simp only [Option.some.injEq] at h; rw [h]

theorem execBatch_tables_indexOnly (l : List Stmt)
    (hl : ∀ st ∈ l, isIndexStmt st = true) :
    ∀ s, (execBatch s l).tables = s.tables := by
  induction l with
  | nil => intro s; rfl
  | cons st l ih =>
    intro s
    have hst := hl st (by simp)
    have hrest : ∀ st' ∈ l, isIndexStmt st' = true :=
      fun st' h' => hl st' (by simp [h'])
    cases st with
    | ctbl n cols fks => simp [isIndexStmt] at hst
    | cidx n t =>
      show (execBatch (execStmt s (.cidx n t)) l).tables = s.tables
      rw [ih hrest]
      exact createIndexINE_tables s n

/-- C6.  apply_schema applies the DDL, runs the migrations, and then sets
journal_mode = WAL and foreign_keys = ON; after any successful call both
pragmas are set on the connection. -/
theorem apply_schema_pragmas (s s' : DbState)
    (h : applySchema s = some s') :
    s'.journalMode = "WAL" ∧ s'.foreignKeysOn = true ∧
    ∃ m, runMigrations (execBatch s schemaStmts) = some m ∧
      s' = setPragmas m := by
  unfold applySchema at h
  simp only [Option.map_eq_some'] at h
  obtain ⟨m, hm, rfl⟩ := h
  exact ⟨rfl, rfl, m, hm, rfl⟩

set_option maxRecDepth 10000 in
/-- Witness for C6: the pragma theorem applied to a freshly opened empty
database. -/
theorem apply_schema_pragmas_witness :
    ∃ s', applySchema emptyDb = some s' ∧
      s'.journalMode = "WAL" ∧ s'.foreignKeysOn = true := by
  cases h : applySchema emptyDb with
  | none => exact absurd h (by decide)
  | some s' =>
    obtain ⟨h1, h2, -⟩ := apply_schema_pragmas emptyDb s' h
    exact ⟨s', rfl, h1, h2⟩

/-- C7.  When blocked_issues_cache lacks a blocked_by or a blocked_at
column, run_migrations drops it and recreates it empty with exactly the
columns (issue_id, blocked_by, blocked_at) and the foreign key to issues;
when both columns are present the table and its contents are unchanged. -/
theorem run_migrations_blocked_cache (s s' : DbState)
    (h : runMigrations s = some s') :
    (¬(hasColumn s "blocked_issues_cache" "blocked_by" = true ∧
       hasColumn s "blocked_issues_cache" "blocked_at" = true) →
      getTable s' "blocked_issues_cache" =
        some ⟨["issue_id", "blocked_by", "blocked_at"],
              [("issue_id", "issues")], []⟩) ∧
    ((hasColumn s "blocked_issues_cache" "blocked_by" = true ∧
      hasColumn s "blocked_issues_cache" "blocked_at" = true) →
      getTable s' "blocked_issues_cache" =
        getTable s "blocked_issues_cache") := by
  unfold runMigrations at h
  simp only [Option.bind_eq_some, Option.map_eq_some'] at h
  obtain ⟨s1, h1, s3, h3, s4, h4, s5, h5, rfl⟩ := h
  have hchain : getTable (execBatch s5 migrationIndexStmts)
      "blocked_issues_cache" = getTable s1 "blocked_issues_cache" := by
    rw [getTable_eq_of_tables (execBatch_tables_indexOnly _ (by decide) s5),
      migrateGastownColumns_getTable_cache h5,
      migrateGateColumns_getTable_cache h4,
      migrateSourceRepo_getTable_cache h3,
      migrateCompaction_getTable_ne _ _ (by decide)]
  constructor
  · intro hnot
    have hguard : (!hasColumn s "blocked_issues_cache" "blocked_by" ||
        !hasColumn s "blocked_issues_cache" "blocked_at") = true := by
      cases hb : hasColumn s "blocked_issues_cache" "blocked_by" <;>
        cases ha : hasColumn s "blocked_issues_cache" "blocked_at" <;>
        simp_all
    unfold migrateBlockedCache at h1
    rw [if_pos hguard] at h1
    simp only [Option.map_eq_some'] at h1
    obtain ⟨s2, hct, rfl⟩ := h1
    rw [hchain, getTable_createIndexINE]
    exact (getTable_createTable hct).1
  · intro ⟨hb, ha⟩
    unfold migrateBlockedCache at h1
    rw [if_neg (by simp [hb, ha])] at h1
    simp only [Option.some.injEq] at h1
    rw [hchain, ← h1]

set_option maxRecDepth 10000 in
/-- Witness for C7: the migration theorem applied to a concrete old-style
database whose blocked_issues_cache has a blocked_by_json column. -/
theorem run_migrations_blocked_cache_witness :
    ∃ s', runMigrations oldCacheDb = some s' ∧
      getTable s' "blocked_issues_cache" =
        some ⟨["issue_id", "blocked_by", "blocked_at"],
              [("issue_id", "issues")], []⟩ := by
  cases h : runMigrations oldCacheDb with
  | none => exact absurd h (by decide)
  | some s' =>
    exact ⟨s', rfl,
      (run_migrations_blocked_cache oldCacheDb s' h).1 (by decide)⟩

theorem hasColumn_congr {s s' : DbState} {t : String}
    (h : getTable s' t = getTable s t) (c : String) :
    hasColumn s' t c = hasColumn s t c := by
  unfold hasColumn; rw [h]

theorem tableExists_eq_of_getTable {s s' : DbState} {n : String}
    (h : getTable s' n = getTable s n) :
    tableExists s' n = tableExists s n := by
  unfold tableExists; rw [h]

theorem compaction_congr {s s' : DbState}
    (h : getTable s' "issues" = getTable s "issues") :
    CompactionOk s → CompactionOk s' := by
  intro hok hcol tb hget r hr
  rw [hasColumn_congr h] at hcol
  rw [h] at hget
  exact hok hcol tb hget r hr

theorem rowGet_map_set (r : SRow) (c : String) (v : Val)
    (h : r.any (fun p => p.1 == c) = true) :
    rowGet (r.map (fun p => if p.1 == c then (p.1, v) else p)) c = v := by
  induction r with
  | nil => simp at h
  | cons p r ih =>
    by_cases hp : p.1 == c
    · unfold rowGet
      rw [List.map_cons, List.find?_cons_of_pos _ (by simp [hp])]
      simp [hp]
    · have h' : r.any (fun p => p.1 == c) = true := by
        simpa [List.any_cons, hp] using h
      unfold rowGet at ih ⊢
      rw [List.map_cons, List.find?_cons_of_neg _ (by simp [hp])]
      exact ih h'

theorem rowGet_append_self (r : SRow) (c : String) (v : Val)
    (h : r.any (fun p => p.1 == c) = false) :
    rowGet (r ++ [(c, v)]) c = v := by
  have hf : r.find? (fun p => p.1 == c) = none := by
    rw [List.find?_eq_none]
    intro x hx
    exact List.any_eq_false.mp h x hx
  unfold rowGet
  rw [List.find?_append, hf, List.find?_cons_of_pos _ (by simp)]
  rfl

theorem rowGet_rowSet_self (r : SRow) (c : String) (v : Val) :
    rowGet (rowSet r c v) c = v := by
  unfold rowSet
  by_cases ha : r.any (fun p => p.1 == c) = true
  · rw [if_pos ha]; exact rowGet_map_set r c v ha
  · rw [if_neg ha]
    exact rowGet_append_self r c v (Bool.eq_false_iff.mpr ha)

theorem rowGet_append_ne (r : SRow) (c c2 : String) (v : Val) (h : c ≠ c2) :
    rowGet (r ++ [(c2, v)]) c = rowGet r c := by
  unfold rowGet
  rw [List.find?_append]
  cases hf : r.find? (fun p => p.1 == c) with
  | some p => simp
  | none => simp [List.find?_cons, beq_eq_false_iff_ne.mpr (Ne.symm h)]

theorem tableExists_updateTable (s : DbState) (t : String)
    (f : STable → STable) (n : String) :
    tableExists (updateTable s t f) n = tableExists s n := by
  by_cases h : n = t
  · subst h
    unfold tableExists
    rw [getTable_updateTable_self]
    cases getTable s n <;> simp
  · exact tableExists_eq_of_getTable (getTable_updateTable_ne _ _ _ _ h)

theorem updateTable_indexes (s : DbState) (t : String) (f : STable → STable) :
    (updateTable s t f).indexes = s.indexes := rfl

theorem tableExists_createTINE_self (s : DbState) (n : String)
    (cols : List String) (fks : List (String × String)) :
    tableExists (createTableIfNotExists s n cols fks) n = true := by
  unfold createTableIfNotExists
  by_cases he : tableExists s n
  · rw [if_pos he]; exact he
  · rw [if_neg he]
    have he' : tableExists s n = false := by simpa using he
    unfold tableExists getTable
    simp [List.find?_append, find_none_of_not_exists he', List.find?_cons]

theorem tableExists_createTINE_mono (s : DbState) (n : String)
    (cols : List String) (fks : List (String × String)) (m : String)
    (h : tableExists s m = true) :
    tableExists (createTableIfNotExists s n cols fks) m = true := by
  unfold createTableIfNotExists
  by_cases he : tableExists s n
  · rw [if_pos he]; exact h
  · rw [if_neg he]
    unfold tableExists getTable at h ⊢
    rw [List.find?_append]
    cases hf : s.tables.find? (fun p => p.1 == m) with
    | some p => simp
    | none => rw [hf] at h; simp at h

theorem createTINE_indexes (s : DbState) (n : String)
    (cols : List String) (fks : List (String × String)) :
    (createTableIfNotExists s n cols fks).indexes = s.indexes := by
  unfold createTableIfNotExists
  split <;> rfl

theorem indexExists_createIdxINE_self (s : DbState) (i : String) :
    indexExists (createIndexIfNotExists s i) i = true := by
  unfold createIndexIfNotExists
  by_cases he : indexExists s i
  · rw [if_pos he]; exact he
  · rw [if_neg he]
    unfold indexExists at he ⊢
    simp

theorem indexExists_createIdxINE_mono (s : DbState) (i j : String)
    (h : indexExists s j = true) :
    indexExists (createIndexIfNotExists s i) j = true := by
  unfold createIndexIfNotExists
  by_cases he : indexExists s i
  · rw [if_pos he]; exact h
  · rw [if_neg he]
    unfold indexExists at h ⊢
    rw [List.elem_iff] at h ⊢
    exact List.mem_append_left _ h

theorem execStmt_tableExists_mono (s : DbState) (st : Stmt) (n : String)
    (h : tableExists s n = true) :
    tableExists (execStmt s st) n = true := by
  cases st with
  | ctbl m cols fks => exact tableExists_createTINE_mono s m cols fks n h
  | cidx i t =>
    show tableExists (createIndexIfNotExists s i) n = true
    rwa [tableExists_eq_of_getTable (getTable_createIndexINE s i n)]

theorem execStmt_indexExists_mono (s : DbState) (st : Stmt) (i : String)
    (h : indexExists s i = true) :
    indexExists (execStmt s st) i = true := by
  cases st with
  | ctbl m cols fks =>
    show indexExists (createTableIfNotExists s m cols fks) i = true
    unfold indexExists at h ⊢
    rwa [createTINE_indexes]
  | cidx j t => exact indexExists_createIdxINE_mono s j i h

theorem stmtDone_mono {s s' : DbState}
    (ht : ∀ n, tableExists s n = true → tableExists s' n = true)
    (hi : ∀ i, indexExists s i = true → indexExists s' i = true)
    (st : Stmt) (h : stmtDone s st = true) : stmtDone s' st = true := by
  cases st with
  | ctbl n cols fks => exact ht n h
  | cidx n t => exact hi n h

theorem execStmt_makes_done (s : DbState) (st : Stmt) :
    stmtDone (execStmt s st) st = true := by
  cases st with
  | ctbl n cols fks => exact tableExists_createTINE_self s n cols fks
  | cidx n t => exact indexExists_createIdxINE_self s n

theorem execStmt_preserves_done (s : DbState) (st st' : Stmt)
    (h : stmtDone s st = true) : stmtDone (execStmt s st') st = true :=
  stmtDone_mono (execStmt_tableExists_mono s st') (execStmt_indexExists_mono s st') st h

theorem execBatch_preserves_done (l : List Stmt) :
    ∀ (s : DbState) (st : Stmt), stmtDone s st = true →
      stmtDone (execBatch s l) st = true := by
  induction l with
  | nil => intro s st h; exact h
  | cons a l ih =>
    intro s st h
    exact ih (execStmt s a) st (execStmt_preserves_done s st a h)

theorem execBatch_makes_done (l : List Stmt) :
    ∀ (s : DbState), ∀ st ∈ l, stmtDone (execBatch s l) st = true := by
  induction l with
  | nil => intro s st h; simp at h
  | cons a l ih =>
    intro s st h
    rcases List.mem_cons.mp h with rfl | hmem
    · exact execBatch_preserves_done l (execStmt s st) st (execStmt_makes_done s st)
    · exact ih (execStmt s a) st hmem

theorem execStmt_done (s : DbState) (st : Stmt)
    (h : stmtDone s st = true) : execStmt s st = s := by
  cases st with
  | ctbl n cols fks =>
    show createTableIfNotExists s n cols fks = s
    unfold createTableIfNotExists
    rw [if_pos (show tableExists s n = true from h)]
  | cidx n t =>
    show createIndexIfNotExists s n = s
    unfold createIndexIfNotExists
    rw [if_pos (show indexExists s n = true from h)]

theorem execBatch_id (l : List Stmt) :
    ∀ (s : DbState), (∀ st ∈ l, stmtDone s st = true) → execBatch s l = s := by
  induction l with
  | nil => intro s _; rfl
  | cons a l ih =>
    intro s h
    show execBatch (execStmt s a) l = s
    rw [execStmt_done s a (h a (by simp))]
    exact ih s (fun st hst => h st (by simp [hst]))

theorem execBatch_indexExists_mono (l : List Stmt) :
    ∀ (s : DbState) (i : String), indexExists s i = true →
      indexExists (execBatch s l) i = true := by
  induction l with
  | nil => intro s i h; exact h
  | cons a l ih =>
    intro s i h
    exact ih (execStmt s a) i (execStmt_indexExists_mono s a i h)

theorem stepOk_refl (s : DbState) : StepOk s s :=
  ⟨fun _ h => h, fun _ h => h, fun _ h => h, id⟩

theorem stepOk_trans {a b c : DbState} (h1 : StepOk a b) (h2 : StepOk b c) :
    StepOk a c :=
  ⟨fun n h => h2.tmono n (h1.tmono n h), fun i h => h2.imono i (h1.imono i h),
   fun x h => h2.hmono x (h1.hmono x h), fun h => h2.comp (h1.comp h)⟩

theorem contains_append_mono {l : List String} {x : String} (c : String)
    (h : l.contains x = true) : (l ++ [c]).contains x = true := by
  rw [List.elem_iff] at h ⊢
  exact List.mem_append_left _ h

theorem contains_append_self (l : List String) (c : String) :
    (l ++ [c]).contains c = true := by
  rw [List.elem_iff]
  exact List.mem_append_right _ (by simp)

theorem contains_append_rev {l : List String} {x c : String}
    (h : (l ++ [c]).contains x = true) (hne : x ≠ c) : l.contains x = true := by
  rw [List.elem_iff] at h ⊢
  rcases List.mem_append.mp h with h1 | h1
  · exact h1
  · simp at h1; exact absurd h1 hne

theorem alter_hasColumn_self {s s' : DbState} {t c : String} {v : Val}
    (h : alterAddColumn s t c v = some s') : hasColumn s' t c = true := by
  obtain ⟨tb, hg, -, rfl⟩ := alterAddColumn_some h
  unfold hasColumn
  rw [getTable_updateTable_self, hg]
  exact contains_append_self tb.cols c

theorem alter_hmono {s s' : DbState} {t c : String} {v : Val}
    (h : alterAddColumn s t c v = some s') (c' : String)
    (hc' : hasColumn s t c' = true) : hasColumn s' t c' = true := by
  obtain ⟨tb, hg, -, rfl⟩ := alterAddColumn_some h
  unfold hasColumn at hc' ⊢
  rw [hg] at hc'
  rw [getTable_updateTable_self, hg]
  exact contains_append_mono c hc'

theorem alter_hasColumn_rev {s s' : DbState} {t c : String} {v : Val}
    (h : alterAddColumn s t c v = some s') (c' : String) (hne : c' ≠ c) :
    hasColumn s' t c' = hasColumn s t c' := by
  obtain ⟨tb, hg, -, rfl⟩ := alterAddColumn_some h
  unfold hasColumn
  rw [getTable_updateTable_self, hg]
  show (tb.cols ++ [c]).contains c' = tb.cols.contains c'
  cases hx : tb.cols.contains c' with
  | true => exact contains_append_mono c hx
  | false =>
    refine Bool.eq_false_iff.mpr (fun hy => ?_)
    have hcc := contains_append_rev hy hne
    rw [hx] at hcc
    exact absurd hcc Bool.false_ne_true

theorem alter_stepOk {s s' : DbState} {c : String} {v : Val}
    (h : alterAddColumn s "issues" c v = some s') (hc : c ≠ "compaction_level") :
    StepOk s s' := by
  obtain ⟨tb, hg, hnc, hs'⟩ := alterAddColumn_some h
  refine ⟨?_, ?_, fun c' hc' => alter_hmono h c' hc', ?_⟩
  · intro n hn
    rw [hs', tableExists_updateTable]
    exact hn
  · intro i hi
    rw [hs']
    exact hi
  · intro hok hcol tb' hget r hr
    have hcol0 : hasColumn s "issues" "compaction_level" = true := by
      rw [alter_hasColumn_rev h _ (Ne.symm hc)] at hcol
      exact hcol
    rw [hs', getTable_updateTable_self, hg] at hget
    simp only [Option.map_some', Option.some.injEq] at hget
    subst hget
    obtain ⟨r0, hr0, rfl⟩ := List.mem_map.mp hr
    rw [rowGet_append_ne _ _ _ _ (Ne.symm hc)]
    exact hok hcol0 tb hg r0 hr0

theorem mbc_getTable_ne {s s' : DbState} (h : migrateBlockedCache s = some s')
    (n : String) (hn : n ≠ "blocked_issues_cache") :
    getTable s' n = getTable s n := by
  unfold migrateBlockedCache at h
  split at h
  · simp only [Option.map_eq_some'] at h
    obtain ⟨s2, hct, rfl⟩ := h
    rw [getTable_createIndexINE, (getTable_createTable hct).2.1 n hn,
      getTable_drop_other _ _ _ hn]
  · simp only [Option.some.injEq] at h
    rw [← h]

theorem mbc_stepOk {s s' : DbState} (h : migrateBlockedCache s = some s') :
    StepOk s s' := by
  have hiss : getTable s' "issues" = getTable s "issues" :=
    mbc_getTable_ne h _ (by decide)
  unfold migrateBlockedCache at h
  split at h
  · simp only [Option.map_eq_some'] at h
    obtain ⟨s2, hct, rfl⟩ := h
    refine ⟨?_, ?_, ?_, compaction_congr hiss⟩
    · intro n hn
      by_cases hcn : n = "blocked_issues_cache"
      · subst hcn
        unfold tableExists
        rw [getTable_createIndexINE, (getTable_createTable hct).1]
        rfl
      · unfold tableExists
        rw [getTable_createIndexINE, (getTable_createTable hct).2.1 n hcn,
          getTable_drop_other _ _ _ hcn]
        exact hn
    · intro i hi
      apply indexExists_createIdxINE_mono
      unfold indexExists
      rw [(getTable_createTable hct).2.2]
      exact hi
    · intro cc hcc
      rw [hasColumn_congr hiss]
      exact hcc
  · simp only [Option.some.injEq] at h
    subst h
    exact stepOk_refl s

theorem mbc_cache_cols {s s' : DbState} (h : migrateBlockedCache s = some s') :
    hasColumn s' "blocked_issues_cache" "blocked_by" = true ∧
    hasColumn s' "blocked_issues_cache" "blocked_at" = true := by
  unfold migrateBlockedCache at h
  split at h
  · simp only [Option.map_eq_some'] at h
    obtain ⟨s2, hct, rfl⟩ := h
    constructor <;>
    · unfold hasColumn
      rw [getTable_createIndexINE, (getTable_createTable hct).1]
      rfl
  · next hguard =>
    simp only [Option.some.injEq] at h
    subst h
    simp only [Bool.or_eq_true, Bool.not_eq_true', not_or,
      Bool.not_eq_false] at hguard
    exact hguard

theorem mc_tableExists (s : DbState) (n : String) :
    tableExists (migrateCompaction s) n = tableExists s n := by
  unfold migrateCompaction
  split
  · rw [tableExists_updateTable]
  · rfl

theorem mc_indexExists (s : DbState) (i : String) :
    indexExists (migrateCompaction s) i = indexExists s i := by
  unfold migrateCompaction
  split <;> rfl

theorem mc_hasColumn (s : DbState) (t c : String) :
    hasColumn (migrateCompaction s) t c = hasColumn s t c := by
  by_cases ht : t = "issues"
  · subst ht
    unfold migrateCompaction
    split
    · unfold hasColumn
      rw [getTable_updateTable_self]
      cases hg : getTable s "issues" with
      | none => rfl
      | some tb => rfl
    · rfl
  · exact hasColumn_congr (migrateCompaction_getTable_ne s t ht) c

theorem mc_establishes (s : DbState) : CompactionOk (migrateCompaction s) := by
  intro hcol tb hget r hr
  unfold migrateCompaction at hcol hget
  by_cases hc : hasColumn s "issues" "compaction_level" = true
  · rw [if_pos hc, getTable_updateTable_self] at hget
    cases hg : getTable s "issues" with
    | none => rw [hg] at hget; simp at hget
    | some tb0 =>
      rw [hg] at hget
      simp only [Option.map_some', Option.some.injEq] at hget
      subst hget
      obtain ⟨r0, hr0, rfl⟩ := List.mem_map.mp hr
      by_cases hz : (rowGet r0 "compaction_level" == Val.vnull) = true
      · rw [if_pos hz, rowGet_rowSet_self]
        simp
      · rw [if_neg hz]
        simpa using hz
  · rw [if_neg hc] at hcol
    exact absurd hcol hc

theorem msr_stepOk {s s' : DbState} (h : migrateSourceRepo s = some s') :
    StepOk s s' := by
  unfold migrateSourceRepo at h
  split at h
  · exact alter_stepOk h (by decide)
  · simp only [Option.some.injEq] at h
    subst h
    exact stepOk_refl s

theorem msr_establishes {s s' : DbState} (h : migrateSourceRepo s = some s') :
    hasColumn s' "issues" "source_repo" = true := by
  unfold migrateSourceRepo at h
  split at h
  · exact alter_hasColumn_self h
  · next hguard =>
    simp only [Option.some.injEq] at h
    subst h
    simpa using hguard

theorem mgate_stepOk {s s' : DbState} (h : migrateGateColumns s = some s') :
    StepOk s s' := by
  unfold migrateGateColumns at h
  split at h
  · simp only [Option.bind_eq_some] at h
    obtain ⟨s1, h1, s2, h2, s3, h3, h4⟩ := h
    exact stepOk_trans (alter_stepOk h1 (by decide))
      (stepOk_trans (alter_stepOk h2 (by decide))
        (stepOk_trans (alter_stepOk h3 (by decide)) (alter_stepOk h4 (by decide))))
  · simp only [Option.some.injEq] at h
    subst h
    exact stepOk_refl s

theorem mgate_establishes {s s' : DbState} (h : migrateGateColumns s = some s') :
    hasColumn s' "issues" "await_type" = true := by
  unfold migrateGateColumns at h
  split at h
  · simp only [Option.bind_eq_some] at h
    obtain ⟨s1, h1, s2, h2, s3, h3, h4⟩ := h
    exact alter_hmono h4 _ (alter_hmono h3 _ (alter_hmono h2 _
      (alter_hasColumn_self h1)))
  · next hguard =>
    simp only [Option.some.injEq] at h
    subst h
    simpa using hguard

theorem mgastown_stepOk {s s' : DbState}
    (h : migrateGastownColumns s = some s') : StepOk s s' := by
  unfold migrateGastownColumns at h
  split at h
  · simp only [Option.bind_eq_some] at h
    obtain ⟨s1, h1, s2, h2, s3, h3, s4, h4, s5, h5, h6⟩ := h
    exact stepOk_trans (alter_stepOk h1 (by decide))
      (stepOk_trans (alter_stepOk h2 (by decide))
        (stepOk_trans (alter_stepOk h3 (by decide))
          (stepOk_trans (alter_stepOk h4 (by decide))
            (stepOk_trans (alter_stepOk h5 (by decide))
              (alter_stepOk h6 (by decide))))))
  · simp only [Option.some.injEq] at h
    subst h
    exact stepOk_refl s

theorem mgastown_establishes {s s' : DbState}
    (h : migrateGastownColumns s = some s') :
    hasColumn s' "issues" "hook_bead" = true := by
  unfold migrateGastownColumns at h
  split at h
  · simp only [Option.bind_eq_some] at h
    obtain ⟨s1, h1, s2, h2, s3, h3, s4, h4, s5, h5, h6⟩ := h
    exact alter_hmono h6 _ (alter_hmono h5 _ (alter_hmono h4 _
      (alter_hmono h3 _ (alter_hmono h2 _ (alter_hasColumn_self h1)))))
  · next hguard =>
    simp only [Option.some.injEq] at h
    subst h
    simpa using hguard

theorem batchF_stepOk (s : DbState) :
    StepOk s (execBatch s migrationIndexStmts) := by
  have ht : (execBatch s migrationIndexStmts).tables = s.tables :=
    execBatch_tables_indexOnly _ (by decide) s
  refine ⟨?_, ?_, ?_, compaction_congr (getTable_eq_of_tables ht _)⟩
  · intro n hn
    rwa [tableExists_eq_of_getTable (getTable_eq_of_tables ht n)]
  · intro i hi
    exact execBatch_indexExists_mono _ s i hi
  · intro c hcc
    rwa [hasColumn_congr (getTable_eq_of_tables ht _)]

theorem runMigrations_post {b m : DbState} (hm : runMigrations b = some m)
    (hs : ∀ st ∈ schemaStmts, stmtDone b st = true) : Post m := by
  unfold runMigrations at hm
  simp only [Option.bind_eq_some, Option.map_eq_some'] at hm
  obtain ⟨s1, h1, s3, h3, s4, h4, s5, h5, rfl⟩ := hm
  have k1 : StepOk b s1 := mbc_stepOk h1
  have k2 : StepOk s1 (migrateCompaction s1) :=
    ⟨fun n hn => by rw [mc_tableExists]; exact hn,
     fun i hi => by rw [mc_indexExists]; exact hi,
     fun c hcc => by rw [mc_hasColumn]; exact hcc,
     fun _ => mc_establishes s1⟩
  have k3 : StepOk (migrateCompaction s1) s3 := msr_stepOk h3
  have k4 : StepOk s3 s4 := mgate_stepOk h4
  have k5 : StepOk s4 s5 := mgastown_stepOk h5
  have k6 : StepOk s5 (execBatch s5 migrationIndexStmts) := batchF_stepOk s5
  have k56 : StepOk s4 (execBatch s5 migrationIndexStmts) := stepOk_trans k5 k6
  have k46 : StepOk s3 (execBatch s5 migrationIndexStmts) := stepOk_trans k4 k56
  have k36 : StepOk (migrateCompaction s1) (execBatch s5 migrationIndexStmts) :=
    stepOk_trans k3 k46
  have k26 : StepOk s1 (execBatch s5 migrationIndexStmts) := stepOk_trans k2 k36
  have k16 : StepOk b (execBatch s5 migrationIndexStmts) := stepOk_trans k1 k26
  have hcache : getTable (execBatch s5 migrationIndexStmts)
      "blocked_issues_cache" = getTable s1 "blocked_issues_cache" := by
    rw [getTable_eq_of_tables (execBatch_tables_indexOnly _ (by decide) s5),
      migrateGastownColumns_getTable_cache h5,
      migrateGateColumns_getTable_cache h4,
      migrateSourceRepo_getTable_cache h3,
      migrateCompaction_getTable_ne _ _ (by decide)]
  refine ⟨?_, ?_, ?_, ?_, ?_, ?_, ?_, ?_⟩
  · intro st hst
    exact stmtDone_mono k16.tmono k16.imono st (hs st hst)
  · exact execBatch_makes_done migrationIndexStmts s5
  · rw [hasColumn_congr hcache]
    exact (mbc_cache_cols h1).1
  · rw [hasColumn_congr hcache]
    exact (mbc_cache_cols h1).2
  · exact k46.hmono _ (msr_establishes h3)
  · exact k56.hmono _ (mgate_establishes h4)
  · exact k6.hmono _ (mgastown_establishes h5)
  · exact k36.comp (mc_establishes s1)

theorem updateFirst_id (l : List (String × STable)) (t : String)
    (f : STable → STable)
    (h : ∀ p, l.find? (fun p => p.1 == t) = some p → f p.2 = p.2) :
    updateFirst l t f = l := by
  induction l with
  | nil => rfl
  | cons q l ih =>
    by_cases hq : q.1 == t
    · unfold updateFirst
      rw [if_pos hq, h q (List.find?_cons_of_pos _ hq)]
    · unfold updateFirst
      rw [if_neg hq]
      congr 1
      exact ih (fun p hp => h p ((List.find?_cons_of_neg l hq).trans hp))

theorem updateTable_id {s : DbState} {t : String} {tb : STable}
    {f : STable → STable} (hg : getTable s t = some tb) (hf : f tb = tb) :
    updateTable s t f = s := by
  unfold updateTable
  rw [updateFirst_id s.tables t f ?_]
  intro p hp
  unfold getTable at hg
  rw [hp] at hg
  simp only [Option.some.injEq] at hg
  rw [hg, hf]

theorem map_fix {α : Type} (l : List α) (g : α → α)
    (h : ∀ x ∈ l, g x = x) : l.map g = l := by
  induction l with
  | nil => rfl
  | cons a l ih =>
    rw [List.map_cons, h a (by simp), ih (fun x hx => h x (by simp [hx]))]

theorem applySchema_id_of_post {s1 : DbState} (hp : Post s1)
    (hw : s1.journalMode = "WAL") (hf : s1.foreignKeysOn = true) :
    applySchema s1 = some s1 := by
  have hb : execBatch s1 schemaStmts = s1 :=
    execBatch_id schemaStmts s1 hp.done_schema
  have h1 : migrateBlockedCache s1 = some s1 := by
    unfold migrateBlockedCache
    rw [if_neg (by simp [hp.cache_by, hp.cache_at])]
  have h2 : migrateCompaction s1 = s1 := by
    unfold migrateCompaction
    by_cases hc : hasColumn s1 "issues" "compaction_level" = true
    · rw [if_pos hc]
      cases hg : getTable s1 "issues" with
      | none =>
        unfold hasColumn at hc
        rw [hg] at hc
        exact absurd hc (by simp)
      | some tb =>
        apply updateTable_id hg
        have hrows : tb.rows.map (fun r =>
            if rowGet r "compaction_level" == Val.vnull then
              rowSet r "compaction_level" (Val.vint 0)
            else r) = tb.rows := by
          apply map_fix
          intro r hr
          rw [if_neg (by
            simpa using hp.compaction hc tb hg r hr)]
        show ({ tb with rows := tb.rows.map _ } : STable) = tb
        rw [hrows]
    · rw [if_neg hc]
  have h3 : migrateSourceRepo s1 = some s1 := by
    unfold migrateSourceRepo
    rw [if_neg (by simp [hp.src_repo])]
  have h4 : migrateGateColumns s1 = some s1 := by
    unfold migrateGateColumns
    rw [if_neg (by simp [hp.await_col])]
  have h5 : migrateGastownColumns s1 = some s1 := by
    unfold migrateGastownColumns
    rw [if_neg (by simp [hp.hook_col])]
  have h6 : execBatch s1 migrationIndexStmts = s1 :=
    execBatch_id migrationIndexStmts s1 hp.done_mig
  have h7 : setPragmas s1 = s1 := by
    cases s1 with
    | mk tt ii jj ff =>
      simp only at hw hf
      unfold setPragmas
      rw [hw, hf]
  unfold applySchema runMigrations
  rw [hb, h1]
  simp only [Option.some_bind]
  rw [h2, h3]
  simp only [Option.some_bind]
  rw [h4]
  simp only [Option.some_bind]
  rw [h5]
  simp only [Option.some_bind, Option.map_some']
  rw [h6, h7]

/-- C5.  apply_schema is idempotent: on every database state on which it
succeeds, a second run succeeds and leaves the entire state, schema and
data alike, exactly as the first run left it. -/
theorem apply_schema_idempotent (s s1 : DbState)
    (h : applySchema s = some s1) : applySchema s1 = some s1 := by
  unfold applySchema at h
  simp only [Option.map_eq_some'] at h
  obtain ⟨m, hm, rfl⟩ := h
  have hpost : Post m :=
    runMigrations_post hm (execBatch_makes_done schemaStmts s)
  have hpost' : Post (setPragmas m) :=
    ⟨hpost.done_schema, hpost.done_mig, hpost.cache_by, hpost.cache_at,
     hpost.src_repo, hpost.await_col, hpost.hook_col, hpost.compaction⟩
  exact applySchema_id_of_post hpost' rfl rfl

set_option maxRecDepth 10000 in
/-- Witness for C5: the idempotence theorem applied to the result of
applying the schema to a freshly opened empty database. -/
theorem apply_schema_idempotent_witness :
    ∃ s1, applySchema emptyDb = some s1 ∧ applySchema s1 = some s1 := by
  cases h : applySchema emptyDb with
  | none => exact absurd h (by decide)
  | some s1 => exact ⟨s1, rfl, apply_schema_idempotent emptyDb s1 h⟩

end Schema

end Beads
